import Mathlib

/-!
Verification of the signal-stream recommendation/backtest core.

This file gives a shallow embedding, in Lean 4, of the strategy, aggregation
and backtest logic of the repository and proves the specification claims
about it.

Modelling conventions, used throughout:

* JavaScript `number`s are modelled as `ℚ` (all arithmetic the verified
  claims exercise is exact field arithmetic; `Math.sqrt` / `Math.exp`,
  which appear only in code paths no claim depends on, are taken as
  abstract function parameters).
* `NaN` entries of the SMA / RSI series are modelled as `none : Option ℚ`;
  JavaScript comparisons involving `NaN` (always false) are modelled by
  `nanLe` / `nanLt`.
* ISO date strings (`"YYYY-MM-DD"`) are modelled as `ℤ` (days since an
  epoch).  Lexicographic order on such strings coincides with numeric
  order of the day number, and `Math.floor((Date(d2) - Date(d1)) /
  86400000)` is exactly `d2 - d1` for midnight-aligned dates.
* A JavaScript object used as a string-keyed record is modelled as an
  insertion-ordered association list `List (String × α)`:
  `jsRecordSet` overwrites in place or appends (JS property-set
  semantics), `jsRecordGet?` looks a key up.
* `Array.prototype.sort(cmp)` is modelled as the stable insertion sort
  `List.insertionSort` with the relation `cmp a b ≤ 0` (ES2019 requires
  the sort to be stable; `cmp a b ≤ 0` places `a` no later than `b`).
-/

namespace SignalStream

/-! ## JavaScript record helpers -/

/-- JS property write `m[k] = v`: overwrite in place if the key exists,
append otherwise. -/
def jsRecordSet (m : List (String × α)) (k : String) (v : α) : List (String × α) :=
  if m.any (fun p => p.1 = k) then
    m.map (fun p => if p.1 = k then (k, v) else p)
  else
    m ++ [(k, v)]

/-- JS property read `m[k]` (as an `Option`). -/
def jsRecordGet? (m : List (String × α)) (k : String) : Option α :=
  (m.find? (fun p => p.1 = k)).map (fun p => p.2)

/-! ## Normalized strategy keys

`signal.name.toLowerCase().replace(/\s+/g, "_")` from
`aggregateSignals`: lowercase the name and collapse every maximal run of
whitespace to one underscore. -/

/-- Lowercase the characters and replace each whitespace run by `'_'`. -/
def collapseWs : List Char → List Char
  | [] => []
  | c :: cs =>
    if c.isWhitespace then
      '_' :: collapseWs (cs.dropWhile Char.isWhitespace)
    else
      c.toLower :: collapseWs cs
termination_by l => l.length
decreasing_by
  · simp only [List.length_cons]
    have := (List.dropWhile_sublist Char.isWhitespace (l := cs)).length_le
    omega
  · simp only [List.length_cons]
    omega

/-- The normalized key of a strategy name. -/
def normKey (s : String) : String :=
  String.mk (collapseWs s.data)

/-! ## TimeSeriesMath (`src/lib/data/fetchHistorical.ts`) -/

/-- `calculateReturns`: consecutive fractional changes,
`(prices[i] - prices[i-1]) / prices[i-1]`. -/
def calculateReturns (prices : List ℚ) : List ℚ :=
  List.zipWith (fun a b => (a - b) / b) (prices.drop 1) prices

/-- `calculateSMA`: for `i < period - 1` the entry is `NaN` (`none`),
else the mean of the trailing `period` values `slice(i - period + 1, i + 1)`. -/
def calculateSMA (values : List ℚ) (period : ℕ) : List (Option ℚ) :=
  (List.range values.length).map (fun i =>
    if i + 1 < period then none
    else some ((((values.drop (i + 1 - period)).take period).sum) / period))

/-- The list `changes` of `calculateRSI`: successive close differences. -/
def rsiChanges (closes : List ℚ) : List ℚ :=
  List.zipWith (fun a b => a - b) (closes.drop 1) closes

/-- Average gain over the RSI window `changes.slice(i - period + 1, i + 1)`. -/
def rsiGainAvg (closes : List ℚ) (period i : ℕ) : ℚ :=
  (((((rsiChanges closes).drop (i + 1 - period)).take period).filter
    (fun c => 0 < c)).sum) / period

/-- Average loss magnitude over the RSI window
`changes.slice(i - period + 1, i + 1)`. -/
def rsiLossAvg (closes : List ℚ) (period i : ℕ) : ℚ :=
  |(((((rsiChanges closes).drop (i + 1 - period)).take period).filter
    (fun c => c < 0)).sum)| / period

/-- One entry of the `calculateRSI` output (index `i` over `changes`). -/
def rsiEntry (closes : List ℚ) (period i : ℕ) : Option ℚ :=
  if i < period then none
  else
    let gains := rsiGainAvg closes period i
    let losses := rsiLossAvg closes period i
    if losses = 0 then some 100
    else some (100 - 100 / (1 + gains / losses))

/-- `calculateRSI` from `src/lib/data/fetchHistorical.ts`: an `NaN` entry
is prepended for the first close, which has no prior change. -/
def calculateRSI (closes : List ℚ) (period : ℕ) : List (Option ℚ) :=
  none :: (List.range (rsiChanges closes).length).map (rsiEntry closes period)

/-- `calculateVolatility`: population stddev of the returns over the last
`period` prices, annualized.  `Math.sqrt` is the abstract parameter
`sqrt`. -/
def calculateVolatility (sqrt : ℚ → ℚ) (prices : List ℚ) (period : ℕ) : ℚ :=
  if prices.length < period then 0
  else
    let returns := calculateReturns (prices.drop (prices.length - period))
    let mean := returns.sum / (returns.length : ℚ)
    let variance := (returns.map (fun r => (r - mean) ^ 2)).sum / (returns.length : ℚ)
    sqrt variance * sqrt 252

/-! ## The supabase backtest function's own RSI variant
(`supabase/functions/backtest/index.ts`, `calculateRSI`).  It differs from
the library version: warm-up entries are `50` (not `NaN`), the window is
`changes.slice(i - period, i)`, no entry is prepended, and a zero average
loss is replaced by the capped relative strength `rs = 100`. -/

/-- Average loss magnitude over the supabase window `slice(i - period, i)`. -/
def rsiLossAvgSb (closes : List ℚ) (period i : ℕ) : ℚ :=
  |(((((rsiChanges closes).drop (i - period)).take period).filter
    (fun c => c < 0)).sum)| / period

/-- Average gain over the supabase window `slice(i - period, i)`. -/
def rsiGainAvgSb (closes : List ℚ) (period i : ℕ) : ℚ :=
  (((((rsiChanges closes).drop (i - period)).take period).filter
    (fun c => 0 < c)).sum) / period

/-- One entry of the supabase `calculateRSI`. -/
def rsiEntrySb (closes : List ℚ) (period i : ℕ) : ℚ :=
  if i < period then 50
  else
    let gains := rsiGainAvgSb closes period i
    let losses := rsiLossAvgSb closes period i
    let rs := if losses = 0 then 100 else gains / losses
    100 - 100 / (1 + rs)

/-- `calculateRSI` from `supabase/functions/backtest/index.ts`. -/
def calculateRSISb (closes : List ℚ) (period : ℕ) : List ℚ :=
  (List.range (rsiChanges closes).length).map (rsiEntrySb closes period)

/-! ## Signals and strategies -/

/-- `SignalDirection` from `src/lib/types.ts`. -/
inductive SignalDirection where
  | buy
  | sell
  | neutral
deriving DecidableEq, Repr

/-- `StrategySignal` from `src/lib/types.ts`.  The free-form `meta`
diagnostic record is modelled as an ordered list of key/value string
pairs; numeric values are rendered with `toString` in place of
`toFixed`. -/
structure StrategySignal where
  name : String
  rawScore : ℚ
  normalizedScore : ℚ
  direction : SignalDirection
  meta : List (String × String)
deriving DecidableEq, Repr

/-- JS `a <= b` where either side may be `NaN`: false if either is. -/
def nanLe : Option ℚ → Option ℚ → Bool
  | some a, some b => a ≤ b
  | _, _ => false

/-- JS `a < b` where either side may be `NaN`: false if either is. -/
def nanLt : Option ℚ → Option ℚ → Bool
  | some a, some b => a < b
  | _, _ => false

/-- Render an SMA entry for the `meta` record (`NaN` prints as in JS). -/
def showOptQ : Option ℚ → String
  | some q => toString q
  | none => "NaN"

/-- `maCrossoverStrategy` from `src/lib/strategies/maCrossover.ts`, with
the window parameters explicit (source defaults: 50 and 200).

The last/previous SMA slots are read as `Option ℚ` (`none` models `NaN`)
and the crossover comparisons use the JS `NaN` semantics `nanLe` /
`nanLt`.  The `rawScore` subtraction is performed on the two last slots;
whenever the guard `data.length ≥ longWindow` holds and
`shortWindow ≤ longWindow`, both are defined, so representing an
undefined difference by `0` is never observable in the repository's
calls. -/
def maCrossoverStrategy (shortWindow longWindow : ℕ) (data : List ℚ) :
    StrategySignal :=
  if data.length < longWindow then
    { name := "MA Crossover", rawScore := 0, normalizedScore := 0,
      direction := .neutral, meta := [("error", "Insufficient data")] }
  else
    let closes := data
    let shortMA := calculateSMA closes shortWindow
    let longMA := calculateSMA closes longWindow
    let lastShortMA := shortMA.getD (shortMA.length - 1) none
    let lastLongMA := longMA.getD (longMA.length - 1) none
    let prevShortMA := shortMA.getD (shortMA.length - 2) none
    let prevLongMA := longMA.getD (longMA.length - 2) none
    let lastPrice := closes.getD (closes.length - 1) 0
    let rawScore :=
      match lastShortMA, lastLongMA with
      | some a, some b => a - b
      | _, _ => 0
    let normalizedScore := rawScore / lastPrice * 100
    let direction : SignalDirection :=
      if nanLe prevShortMA prevLongMA && nanLt lastLongMA lastShortMA then .buy
      else if nanLe prevLongMA prevShortMA && nanLt lastShortMA lastLongMA then .sell
      else if nanLt lastLongMA lastShortMA then .buy
      else if nanLt lastShortMA lastLongMA then .sell
      else .neutral
    { name := "MA Crossover", rawScore := rawScore,
      normalizedScore := normalizedScore, direction := direction,
      meta := [("shortMA", showOptQ lastShortMA), ("longMA", showOptQ lastLongMA),
        ("shortWindow", toString shortWindow), ("longWindow", toString longWindow)] }

/-- `rsiMeanReversionStrategy` from `src/lib/strategies/rsiMeanReversion.ts`
(source defaults: period 14, oversold 30, overbought 70). -/
def rsiMeanReversionStrategy (period : ℕ) (oversold overbought : ℚ)
    (data : List ℚ) : StrategySignal :=
  if data.length < period + 1 then
    { name := "RSI Mean Reversion", rawScore := 0, normalizedScore := 0,
      direction := .neutral, meta := [("error", "Insufficient data")] }
  else
    let closes := data
    let rsi := calculateRSI closes period
    let lastRSI := rsi.getD (rsi.length - 1) none
    match lastRSI with
    | none =>
      { name := "RSI Mean Reversion", rawScore := 0, normalizedScore := 0,
        direction := .neutral, meta := [("error", "RSI calculation failed")] }
    | some r =>
      let rawScore : ℚ :=
        if r < oversold then oversold - r
        else if overbought < r then -(r - overbought)
        else 0
      let direction : SignalDirection :=
        if r < oversold then .buy
        else if overbought < r then .sell
        else .neutral
      { name := "RSI Mean Reversion", rawScore := rawScore,
        normalizedScore := rawScore / 50 * 2, direction := direction,
        meta := [("rsi", toString r), ("period", toString period),
          ("oversold", toString oversold), ("overbought", toString overbought)] }

/-- `multiFactorStrategy` from the multi-factor strategy module (source
defaults: momentumPeriod 126, volatilityPeriod 60, momentumWeight 0.7,
volatilityWeight 0.3).  `Math.sqrt` (used by `calculateVolatility`) is
the abstract parameter `sqrt`; `closes[closes.length - momentumPeriod - 1]`
is read with default `0` (it is in range whenever
`data.length > momentumPeriod`). -/
def multiFactorStrategy (sqrt : ℚ → ℚ) (momentumPeriod volatilityPeriod : ℕ)
    (momentumWeight volatilityWeight : ℚ) (data : List ℚ) : StrategySignal :=
  if data.length < momentumPeriod then
    { name := "Multi-Factor", rawScore := 0, normalizedScore := 0,
      direction := .neutral, meta := [("error", "Insufficient data")] }
  else
    let closes := data
    let currentPrice := closes.getD (closes.length - 1) 0
    let oldPrice := closes.getD (closes.length - momentumPeriod - 1) 0
    let momentum := (currentPrice - oldPrice) / oldPrice
    let volatility := calculateVolatility sqrt closes volatilityPeriod
    let momentumZScore := momentum / (3 / 10)
    let volatilityZScore := -(volatility - 1 / 4) / (15 / 100)
    let combinedScore :=
      momentumWeight * momentumZScore + volatilityWeight * volatilityZScore
    let direction : SignalDirection :=
      if 1 / 2 < combinedScore then .buy
      else if combinedScore < -(1 / 2) then .sell
      else .neutral
    { name := "Multi-Factor", rawScore := combinedScore,
      normalizedScore := max (-2) (min 2 combinedScore), direction := direction,
      meta := [("momentum", toString (momentum * 100)),
        ("volatility", toString (volatility * 100)),
        ("momentumZScore", toString momentumZScore),
        ("volatilityZScore", toString volatilityZScore)] }

/-- `mlStrategy` from the fixed-coefficient linear strategy module.
`Math.sqrt` and `Math.exp` are the abstract parameters `sqrt` and
`exp`. -/
def mlStrategy (sqrt exp : ℚ → ℚ) (data : List ℚ) : StrategySignal :=
  if data.length < 60 then
    { name := "ML Strategy", rawScore := 0, normalizedScore := 0,
      direction := .neutral, meta := [("error", "Insufficient data")] }
  else
    let closes := data
    let rsi := calculateRSI closes 14
    let lastRSI := rsi.getD (rsi.length - 1) none
    let rsiNorm : ℚ :=
      match lastRSI with
      | none => 1 / 2
      | some r => r / 100
    let currentPrice := closes.getD (closes.length - 1) 0
    let oldPrice := closes.getD (closes.length - 11) 0
    let shortMomentum := (currentPrice - oldPrice) / oldPrice
    let volatility := calculateVolatility sqrt closes 30
    let rawScore : ℚ :=
      1 / 10 + (-(1 / 2)) * rsiNorm + 2 * shortMomentum + (-1) * volatility
    let probability := 1 / (1 + exp (-rawScore))
    let direction : SignalDirection :=
      if 3 / 5 < probability then .buy
      else if probability < 2 / 5 then .sell
      else .neutral
    { name := "ML Strategy", rawScore := rawScore,
      normalizedScore := (probability - 1 / 2) * 4, direction := direction,
      meta := [("probability", toString probability),
        ("rsi", showOptQ lastRSI),
        ("momentum", toString (shortMomentum * 100)),
        ("volatility", toString (volatility * 100))] }

/-! ## SignalAggregator (`aggregateSignals` module) -/

/-- `RecommendationType` from `src/lib/types.ts`. -/
inductive RecommendationType where
  | BUY
  | SELL
  | HOLD
deriving DecidableEq, Repr

/-- `AssetRecommendation` from `src/lib/types.ts`.  `contributingSignals`
is the JS record, modelled as an insertion-ordered association list. -/
structure AssetRecommendation where
  ticker : String
  assetType : String
  recommendation : RecommendationType
  score : ℚ
  confidence : ℚ
  volatility : ℚ
  currentPrice : ℚ
  priceChangePct : ℚ
  contributingSignals : List (String × StrategySignal)
deriving DecidableEq, Repr

/-- `DEFAULT_WEIGHTS` from `src/lib/types.ts`, in declaration order. -/
def DEFAULT_WEIGHTS : List (String × ℚ) :=
  [("ma_crossover", 1), ("rsi_mean_reversion", 1), ("multi_factor", 1),
    ("ml_strategy", 1 / 2)]

/-- The signal map of `aggregateSignals`: each signal is written to the
record under its normalized name (later writes overwrite earlier ones). -/
def buildSignalMap (signals : List StrategySignal) : List (String × StrategySignal) :=
  signals.foldl (fun m s => jsRecordSet m (normKey s.name) s) []

/-- The `(weightedScore, totalWeight)` accumulation of `aggregateSignals`:
iterate over the entries of the weights record, adding
`weight * signal.normalizedScore` and `weight` for every weight key that
is present in the signal map. -/
def weightTotals (signalMap : List (String × StrategySignal))
    (weights : List (String × ℚ)) : ℚ × ℚ :=
  weights.foldl (fun acc kw =>
    match jsRecordGet? signalMap kw.1 with
    | some s => (acc.1 + kw.2 * s.normalizedScore, acc.2 + kw.2)
    | none => acc) (0, 0)

/-- `scoreFactor` of `calculateConfidence`: `min(|combinedScore|/2, 1) * 40`. -/
def scoreFactor (combinedScore : ℚ) : ℚ :=
  min (|combinedScore| / 2) 1 * 40

/-- `agreementFactor` of `calculateConfidence`: the largest direction-vote
count over the signal count, times 40. -/
def agreementFactor (signals : List StrategySignal) : ℚ :=
  let buyCount := (signals.filter (fun s => s.direction = .buy)).length
  let sellCount := (signals.filter (fun s => s.direction = .sell)).length
  let neutralCount := (signals.filter (fun s => s.direction = .neutral)).length
  let maxCount := max buyCount (max sellCount neutralCount)
  ((maxCount : ℚ) / (signals.length : ℚ)) * 40

/-- `volatilityFactor` of `calculateConfidence`: `20 - min(volatility*100, 20)`. -/
def volatilityFactor (volatility : ℚ) : ℚ :=
  20 - min (volatility * 100) 20

/-- `calculateConfidence` from the aggregator module. -/
def calculateConfidence (signals : List StrategySignal) (combinedScore : ℚ)
    (volatility : ℚ) : ℚ :=
  if signals.length = 0 then 0
  else
    max 0 (min 100
      (scoreFactor combinedScore + agreementFactor signals + volatilityFactor volatility))

/-- `aggregateSignals` from the aggregator module (the `weights` argument
defaults to `DEFAULT_WEIGHTS` at the call sites). -/
def aggregateSignals (ticker assetType : String)
    (currentPrice priceChangePct volatility : ℚ)
    (signals : List StrategySignal)
    (weights : List (String × ℚ)) : AssetRecommendation :=
  let signalMap := buildSignalMap signals
  let totals := weightTotals signalMap weights
  let combinedScore := if 0 < totals.2 then totals.1 / totals.2 else 0
  let recommendation : RecommendationType :=
    if 1 / 2 ≤ combinedScore then .BUY
    else if combinedScore ≤ -(1 / 2) then .SELL
    else .HOLD
  let confidence := calculateConfidence signals combinedScore volatility
  { ticker := ticker, assetType := assetType, recommendation := recommendation,
    score := combinedScore, confidence := confidence, volatility := volatility,
    currentPrice := currentPrice, priceChangePct := priceChangePct,
    contributingSignals := signalMap }

/-- The comparator of `rankRecommendations`: descending `|score|`, with
differences of at most `0.01` treated as a tie broken by descending
confidence. -/
def cmpRec (a b : AssetRecommendation) : ℚ :=
  let scoreCompare := |b.score| - |a.score|
  if 1 / 100 < |scoreCompare| then scoreCompare
  else b.confidence - a.confidence

/-- `rankRecommendations`: `[...recommendations].sort(cmpRec)`, modelled
as the stable insertion sort with the relation `cmpRec a b ≤ 0`. -/
def rankRecommendations (recommendations : List AssetRecommendation) :
    List AssetRecommendation :=
  List.insertionSort (fun a b => cmpRec a b ≤ 0) recommendations

/-! ## BacktestEngine
(`src/lib/backtest/engine.ts` and, with line-identical rebalance logic,
`supabase/functions/backtest/index.ts`). -/

/-- One OHLCV bar.  Only the fields the embedded code reads are kept:
`date` (a day number; ISO strings compare lexicographically exactly as
the day numbers compare) and `close`.  `open`/`high`/`low`/`volume` are
never read by the verified code paths. -/
structure PriceBar where
  date : ℤ
  close : ℚ
deriving DecidableEq, Repr

/-- `BacktestConfig` from the supabase backtest function, with the two
date strings as day numbers. -/
structure BacktestConfig where
  tickers : List String
  assetType : String
  strategies : List String
  startDate : ℤ
  endDate : ℤ
  rebalancePeriod : ℤ
  initialCapital : ℚ
deriving DecidableEq, Repr

/-- The validation prologue of `serve` in
`supabase/functions/backtest/index.ts` (its five `throw`s, in source
order).  `now` stands for `new Date()`; a returned `some msg` models the
thrown `Error(msg)`, `none` models passing validation and proceeding to
the fetch loop. -/
def validateConfig (now : ℤ) (config : BacktestConfig) : Option String :=
  if config.tickers.length = 0 then some "At least one ticker is required"
  else if 10 < config.tickers.length then some "Maximum 10 tickers allowed"
  else if config.strategies.length = 0 then some "At least one strategy is required"
  else if config.endDate ≤ config.startDate then some "End date must be after start date"
  else if now < config.endDate then some "End date cannot be in the future"
  else none

/-- `Trade.action`. -/
inductive TradeAction where
  | buy
  | sell
deriving DecidableEq, Repr

/-- `Trade` from `src/lib/types.ts`. -/
structure Trade where
  date : ℤ
  ticker : String
  action : TradeAction
  price : ℚ
  quantity : ℚ
  value : ℚ
deriving DecidableEq, Repr

/-- `getPriceAtDate`: the close of the bar at the exact date, else 0. -/
def getPriceAtDate (data : List PriceBar) (date : ℤ) : ℚ :=
  match data.find? (fun d => d.date = date) with
  | some point => point.close
  | none => 0

/-- `tickerDataMap[ticker]`, with a missing ticker read as the empty
series (the source only indexes tickers whose data was stored). -/
def tickerData (tickerDataMap : List (String × List PriceBar)) (ticker : String) :
    List PriceBar :=
  (jsRecordGet? tickerDataMap ticker).getD []

/-- `calculatePortfolioValue`: cash plus mark-to-market value of the
holdings at the date. -/
def calculatePortfolioValue (cash : ℚ) (holdings : List (String × ℚ))
    (tickerDataMap : List (String × List PriceBar)) (date : ℤ) : ℚ :=
  cash + holdings.foldl (fun acc p =>
    acc + p.2 * getPriceAtDate (tickerData tickerDataMap p.1) date) 0

/-- The mutable simulation state of `runBacktest`. -/
structure BTState where
  cash : ℚ
  holdings : List (String × ℚ)
  equityCurve : List (ℤ × ℚ)
  trades : List Trade
  periodReturns : List ℚ
  lastRebalanceDate : ℤ
  valueAtLastRebalance : ℚ
deriving DecidableEq, Repr

/-- The liquidation loop of a rebalance event: sell every held position
whose price at the date is positive, crediting cash and appending a sell
trade; positions without a price are skipped. -/
def liquidateHoldings (tickerDataMap : List (String × List PriceBar)) (date : ℤ)
    (cash : ℚ) (holdings : List (String × ℚ)) (trades : List Trade) :
    ℚ × List Trade :=
  holdings.foldl (fun acc p =>
    let price := getPriceAtDate (tickerData tickerDataMap p.1) date
    if 0 < price then
      let trade : Trade :=
        { date := date, ticker := p.1, action := .sell, price := price,
          quantity := p.2, value := p.2 * price }
      (acc.1 + p.2 * price, acc.2 ++ [trade])
    else acc) (cash, trades)

/-- One iteration of the buy loop of a rebalance event, threading
`(cash, holdings, trades)`. -/
def buyStep (tickerDataMap : List (String × List PriceBar)) (date : ℤ)
    (capitalPerAsset : ℚ) (acc : ℚ × List (String × ℚ) × List Trade)
    (rec : AssetRecommendation) : ℚ × List (String × ℚ) × List Trade :=
  let price := getPriceAtDate (tickerData tickerDataMap rec.ticker) date
  if 0 < price then
    let quantity : ℤ := ⌊capitalPerAsset / price⌋
    if 0 < quantity then
      let trade : Trade :=
        { date := date, ticker := rec.ticker, action := .buy, price := price,
          quantity := (quantity : ℚ), value := (quantity : ℚ) * price }
      (acc.1 - (quantity : ℚ) * price,
        jsRecordSet acc.2.1 rec.ticker (quantity : ℚ),
        acc.2.2 ++ [trade])
    else acc
  else acc

/-- One date iteration of the `runBacktest` loop.  `recsAt` stands for
`generateRecommendations(tickers, assetType, tickerDataMap, date,
strategies)`: the engine is verified for every recommendation generator
(the source generator composes the strategies above with
`aggregateSignals`; its numeric results are irrelevant to the engine's
bookkeeping).  The pair `(i, date)` is the loop index and the date. -/
def btStep (tickerDataMap : List (String × List PriceBar))
    (recsAt : ℤ → List AssetRecommendation) (rebalancePeriod : ℤ)
    (s : BTState) (idxDate : ℕ × ℤ) : BTState :=
  let i := idxDate.1
  let date := idxDate.2
  let daysSinceRebalance := date - s.lastRebalanceDate
  if rebalancePeriod ≤ daysSinceRebalance ∨ i = 0 then
    let currentPortfolioValue :=
      calculatePortfolioValue s.cash s.holdings tickerDataMap date
    let periodReturns :=
      if 0 < i then
        s.periodReturns ++
          [(currentPortfolioValue - s.valueAtLastRebalance) / s.valueAtLastRebalance]
      else s.periodReturns
    let sold := liquidateHoldings tickerDataMap date s.cash s.holdings s.trades
    let emptiedHoldings : List (String × ℚ) := []
    let buyRecommendations :=
      (List.insertionSort (fun a b => b.score ≤ a.score)
        ((recsAt date).filter (fun r => r.recommendation = .BUY))).take 5
    let afterBuys :=
      if buyRecommendations.length ≠ 0 then
        let capitalPerAsset := sold.1 / (buyRecommendations.length : ℚ)
        buyRecommendations.foldl (buyStep tickerDataMap date capitalPerAsset)
          (sold.1, emptiedHoldings, sold.2)
      else (sold.1, emptiedHoldings, sold.2)
    { cash := afterBuys.1, holdings := afterBuys.2.1, trades := afterBuys.2.2,
      periodReturns := periodReturns, lastRebalanceDate := date,
      valueAtLastRebalance :=
        calculatePortfolioValue afterBuys.1 afterBuys.2.1 tickerDataMap date,
      equityCurve := s.equityCurve ++
        [(date, calculatePortfolioValue afterBuys.1 afterBuys.2.1 tickerDataMap date)] }
  else
    { s with equityCurve := s.equityCurve ++
        [(date, calculatePortfolioValue s.cash s.holdings tickerDataMap date)] }

/-- The sorted union of all dates present in the fetched data
(`Set` insertion order deduplicates; `Array.from(..).sort()` sorts the ISO
strings, i.e. the day numbers, ascending). -/
def sortedDatesOf (tickerDataMap : List (String × List PriceBar)) : List ℤ :=
  List.insertionSort (fun a b => a ≤ b)
    ((tickerDataMap.map (fun p => p.2.map (fun d => d.date))).flatten.dedup)

/-- The initial portfolio state of `runBacktest`. -/
def initState (initialCapital : ℚ) (firstDate : ℤ) : BTState :=
  { cash := initialCapital, holdings := [], equityCurve := [], trades := [],
    periodReturns := [], lastRebalanceDate := firstDate,
    valueAtLastRebalance := initialCapital }

/-- `runBacktest`, from the post-fetch `tickerDataMap` on: the simulation
loop over the sorted unified date axis, returning the final state (whose
`equityCurve`, `trades` and `periodReturns` are the simulation outputs;
the final `calculatePerformanceMetrics` pass consumes them through
`Math.sqrt`/`Math.pow` and is outside the verified claims). -/
def runBacktest (tickerDataMap : List (String × List PriceBar))
    (recsAt : ℤ → List AssetRecommendation) (config : BacktestConfig) : BTState :=
  let sortedDates := sortedDatesOf tickerDataMap
  (sortedDates.enum).foldl (btStep tickerDataMap recsAt config.rebalancePeriod)
    (initState config.initialCapital (sortedDates.headD 0))

/-! ## Lemmas about the stable sort -/

section SortLemmas

variable {α : Type} (r : α → α → Prop) [DecidableRel r]

/-- Inserting into a locally sorted list keeps it locally sorted, provided
the relation is total. -/
lemma chain'_orderedInsert (htot : ∀ a b, ¬r a b → r b a) (a : α) :
    ∀ l : List α, l.Chain' r → (List.orderedInsert r a l).Chain' r
  | [], _ => by simp [List.orderedInsert]
  | b :: l, h => by
    by_cases hab : r a b
    · rw [List.orderedInsert, if_pos hab]
      exact List.chain'_cons.mpr ⟨hab, h⟩
    · rw [List.orderedInsert, if_neg hab]
      refine List.chain'_cons'.mpr ⟨?_, chain'_orderedInsert htot a l h.tail⟩
      intro y hy
      cases l with
      | nil =>
        simp [List.orderedInsert] at hy
        exact hy ▸ htot _ _ hab
      | cons c t =>
        by_cases hac : r a c
        · rw [List.orderedInsert, if_pos hac] at hy
          simp at hy
          exact hy ▸ htot _ _ hab
        · rw [List.orderedInsert, if_neg hac] at hy
          simp at hy
          exact hy ▸ (List.chain'_cons.mp h).1

/-- The output of the stable insertion sort is locally sorted when the
relation is total. -/
lemma chain'_insertionSort (htot : ∀ a b, ¬r a b → r b a) :
    ∀ l : List α, (List.insertionSort r l).Chain' r
  | [] => by simp [List.insertionSort]
  | x :: l => by
    rw [List.insertionSort]
    exact chain'_orderedInsert r htot x _ (chain'_insertionSort htot l)

/-- Sorting a locally sorted list leaves it unchanged (for any relation:
only adjacent positions are ever inspected). -/
lemma insertionSort_eq_self_of_chain' :
    ∀ l : List α, l.Chain' r → List.insertionSort r l = l
  | [], _ => rfl
  | x :: l, h => by
    rw [List.insertionSort, insertionSort_eq_self_of_chain' l h.tail]
    cases l with
    | nil => rfl
    | cons y t =>
      rw [List.orderedInsert, if_pos (List.chain'_cons.mp h).1]

end SortLemmas

/-- The ranking comparator is antisymmetric in the JS sense:
`cmp(b, a) = -cmp(a, b)`. -/
lemma cmpRec_neg (a b : AssetRecommendation) : cmpRec b a = -cmpRec a b := by
  unfold cmpRec
  have h1 : |a.score| - |b.score| = -(|b.score| - |a.score|) := by ring
  dsimp only
  rw [h1, abs_neg, apply_ite (fun x : ℚ => -x)]
  split
  · ring
  · ring

/-- The relation ordering `a` no later than `b` in `rankRecommendations`
is total. -/
lemma cmpRec_le_total (a b : AssetRecommendation) :
    ¬cmpRec a b ≤ 0 → cmpRec b a ≤ 0 := by
  intro h
  rw [cmpRec_neg]
  linarith [lt_of_not_le h]

/-- C3.  `rankRecommendations` is idempotent: ranking an already-ranked
list reproduces the same order; and for two recommendations whose
absolute scores differ by less than `0.01` the comparator falls back to
descending confidence. -/
theorem rankRecommendations_idempotent :
    (∀ l : List AssetRecommendation,
      rankRecommendations (rankRecommendations l) = rankRecommendations l) ∧
    (∀ a b : AssetRecommendation, |(|b.score| - |a.score|)| < 1 / 100 →
      cmpRec a b = b.confidence - a.confidence) := by
  constructor
  · intro l
    exact insertionSort_eq_self_of_chain' _ _
      (chain'_insertionSort _ cmpRec_le_total l)
  · intro a b h
    unfold cmpRec
    rw [if_neg (by intro hlt; linarith)]

/-- Witness for C3: two concrete recommendations whose absolute scores
differ by less than `0.01` compare by descending confidence. -/
theorem rankRecommendations_idempotent_witness :
    cmpRec
      { ticker := "A", assetType := "stocks", recommendation := .BUY, score := 1,
        confidence := 80, volatility := 0, currentPrice := 1, priceChangePct := 0,
        contributingSignals := [] }
      { ticker := "B", assetType := "stocks", recommendation := .BUY,
        score := 1005 / 1000, confidence := 90, volatility := 0, currentPrice := 1,
        priceChangePct := 0, contributingSignals := [] } = 90 - 80 :=
  rankRecommendations_idempotent.2 _ _ (by norm_num [abs_of_nonneg])

/-- C6.  Every strategy, fed fewer bars than its minimum window, returns
the neutral zero-score signal carrying the explanatory diagnostic
`("error", "Insufficient data")` in `meta` — the guard is the first
statement of each strategy, so no other code runs (the embedded
functions are total: nothing is thrown). -/
theorem strategies_insufficient_history_neutral :
    (∀ (shortWindow longWindow : ℕ) (data : List ℚ), data.length < longWindow →
      maCrossoverStrategy shortWindow longWindow data =
        { name := "MA Crossover", rawScore := 0, normalizedScore := 0,
          direction := .neutral, meta := [("error", "Insufficient data")] }) ∧
    (∀ (period : ℕ) (oversold overbought : ℚ) (data : List ℚ),
      data.length < period + 1 →
      rsiMeanReversionStrategy period oversold overbought data =
        { name := "RSI Mean Reversion", rawScore := 0, normalizedScore := 0,
          direction := .neutral, meta := [("error", "Insufficient data")] }) ∧
    (∀ (sqrt : ℚ → ℚ) (momentumPeriod volatilityPeriod : ℕ)
      (momentumWeight volatilityWeight : ℚ) (data : List ℚ),
      data.length < momentumPeriod →
      multiFactorStrategy sqrt momentumPeriod volatilityPeriod momentumWeight
        volatilityWeight data =
        { name := "Multi-Factor", rawScore := 0, normalizedScore := 0,
          direction := .neutral, meta := [("error", "Insufficient data")] }) ∧
    (∀ (sqrt exp : ℚ → ℚ) (data : List ℚ), data.length < 60 →
      mlStrategy sqrt exp data =
        { name := "ML Strategy", rawScore := 0, normalizedScore := 0,
          direction := .neutral, meta := [("error", "Insufficient data")] }) := by
  refine ⟨?_, ?_, ?_, ?_⟩
  · intro sw lw data h
    rw [maCrossoverStrategy, if_pos h]
  · intro p os ob data h
    rw [rsiMeanReversionStrategy, if_pos h]
  · intro sq mp vp mw vw data h
    rw [multiFactorStrategy, if_pos h]
  · intro sq ex data h
    rw [mlStrategy, if_pos h]

/-- Witness for C6: each strategy applied to a concrete series shorter
than its window (199 bars of `1` for the 200-bar MA-crossover gate, and
the empty series for the others). -/
theorem strategies_insufficient_history_neutral_witness :
    maCrossoverStrategy 50 200 (List.replicate 199 1) =
      { name := "MA Crossover", rawScore := 0, normalizedScore := 0,
        direction := .neutral, meta := [("error", "Insufficient data")] } ∧
    rsiMeanReversionStrategy 14 30 70 [] =
      { name := "RSI Mean Reversion", rawScore := 0, normalizedScore := 0,
        direction := .neutral, meta := [("error", "Insufficient data")] } ∧
    multiFactorStrategy id 126 60 (7 / 10) (3 / 10) [] =
      { name := "Multi-Factor", rawScore := 0, normalizedScore := 0,
        direction := .neutral, meta := [("error", "Insufficient data")] } ∧
    mlStrategy id id [] =
      { name := "ML Strategy", rawScore := 0, normalizedScore := 0,
        direction := .neutral, meta := [("error", "Insufficient data")] } :=
  ⟨strategies_insufficient_history_neutral.1 50 200 _
      (by rw [List.length_replicate]; omega),
    strategies_insufficient_history_neutral.2.1 14 30 70 [] (by simp),
    strategies_insufficient_history_neutral.2.2.1 id 126 60 (7 / 10) (3 / 10) []
      (by simp),
    strategies_insufficient_history_neutral.2.2.2 id id [] (by simp)⟩

/-- C8.  For a non-empty signal list, any combined score and any
(non-negative, arbitrarily large) volatility, the aggregator's confidence
lies in `[0, 100]`; the three factors respect their bands (`scoreFactor`
in `[0, 40]`, `agreementFactor` in `[0, 40]`, `volatilityFactor` in
`[0, 20]`), and the clamp to `[0, 100]` holds for every volatility
whatsoever. -/
theorem confidence_clamped :
    ∀ (signals : List StrategySignal) (combinedScore volatility : ℚ),
      signals ≠ [] →
      (0 ≤ calculateConfidence signals combinedScore volatility ∧
        calculateConfidence signals combinedScore volatility ≤ 100) ∧
      (0 ≤ scoreFactor combinedScore ∧ scoreFactor combinedScore ≤ 40) ∧
      (0 ≤ agreementFactor signals ∧ agreementFactor signals ≤ 40) ∧
      (0 ≤ volatility →
        0 ≤ volatilityFactor volatility ∧ volatilityFactor volatility ≤ 20) := by
  intro signals combinedScore volatility hne
  have hconf : 0 ≤ calculateConfidence signals combinedScore volatility ∧
      calculateConfidence signals combinedScore volatility ≤ 100 := by
    unfold calculateConfidence
    split
    · norm_num
    · constructor
      · exact le_max_left 0 _
      · exact max_le (by norm_num) (min_le_left 100 _)
  refine ⟨hconf, ⟨?_, ?_⟩, ⟨?_, ?_⟩, ?_⟩
  · unfold scoreFactor
    have h1 : (0 : ℚ) ≤ min (|combinedScore| / 2) 1 :=
      le_min (by positivity) (by norm_num)
    nlinarith
  · unfold scoreFactor
    have h2 : min (|combinedScore| / 2) 1 ≤ 1 := min_le_right _ _
    nlinarith [le_min (show (0:ℚ) ≤ |combinedScore| / 2 by positivity)
      (show (0:ℚ) ≤ 1 by norm_num)]
  · unfold agreementFactor
    have hlen : 0 < (signals.length : ℚ) := by
      have := List.length_pos.mpr hne
      exact_mod_cast this
    positivity
  · unfold agreementFactor
    dsimp only
    have hlen : 0 < (signals.length : ℚ) := by
      have := List.length_pos.mpr hne
      exact_mod_cast this
    have hb : (signals.filter (fun s => s.direction = .buy)).length ≤ signals.length :=
      List.length_filter_le _ _
    have hs : (signals.filter (fun s => s.direction = .sell)).length ≤ signals.length :=
      List.length_filter_le _ _
    have hn :
        (signals.filter (fun s => s.direction = .neutral)).length ≤ signals.length :=
      List.length_filter_le _ _
    have hmax :
        ((max (signals.filter (fun s => s.direction = .buy)).length
          (max (signals.filter (fun s => s.direction = .sell)).length
            (signals.filter (fun s => s.direction = .neutral)).length) : ℕ) : ℚ) ≤
          (signals.length : ℚ) :=
      Nat.cast_le.mpr (by omega)
    rw [div_mul_eq_mul_div, div_le_iff₀ hlen]
    nlinarith
  · intro hv
    unfold volatilityFactor
    constructor
    · have : min (volatility * 100) 20 ≤ 20 := min_le_right _ _
      linarith
    · have : (0 : ℚ) ≤ min (volatility * 100) 20 :=
        le_min (by nlinarith) (by norm_num)
      linarith

/-- A concrete buy signal used by the C8 witness. -/
def c8Signal : StrategySignal :=
  { name := "MA Crossover", rawScore := 1, normalizedScore := 1,
    direction := .buy, meta := [] }

/-- Witness for C8: one concrete buy signal, combined score `5`,
volatility `1000` (which would push the raw volatility factor far below
its band were it not clamped). -/
theorem confidence_clamped_witness :
    (0 ≤ calculateConfidence [c8Signal] 5 1000 ∧
      calculateConfidence [c8Signal] 5 1000 ≤ 100) ∧
    (0 ≤ scoreFactor 5 ∧ scoreFactor 5 ≤ 40) ∧
    (0 ≤ agreementFactor [c8Signal] ∧ agreementFactor [c8Signal] ≤ 40) ∧
    (0 ≤ (1000 : ℚ) →
      0 ≤ volatilityFactor 1000 ∧ volatilityFactor 1000 ≤ 20) :=
  confidence_clamped [c8Signal] 5 1000 (by simp)

end SignalStream

namespace SignalStream

/-- Counterexample for C2: a `BacktestConfig` whose date span is 800 days
(spec limit: 730), whose initial capital is negative and whose rebalance
period is zero passes the source's validation (`none` = no
`ValidationError`), so the run proceeds to the fetch loop.  The claim
that validation rejects every precondition violation listed by the spec
is therefore false. -/
theorem validateConfig_misses_spec_preconditions :
    validateConfig 1000
      { tickers := ["AAPL"], assetType := "stocks", strategies := ["ma_crossover"],
        startDate := 0, endDate := 800, rebalancePeriod := 0,
        initialCapital := -1 } = none := by
  norm_num [validateConfig]

/-- C2 (amended).  The validation prologue of the backtest entry point
passes exactly when the ticker list is non-empty and has at most 10
entries, at least one strategy is selected, the end date is strictly
after the start date and the end date is not in the future; it checks
nothing else (in particular neither the 730-day span limit nor the
positivity of capital and rebalance period). -/
theorem validateConfig_iff :
    ∀ (now : ℤ) (config : BacktestConfig),
      validateConfig now config = none ↔
        (config.tickers ≠ [] ∧ config.tickers.length ≤ 10 ∧
          config.strategies ≠ [] ∧ config.startDate < config.endDate ∧
          config.endDate ≤ now) := by
  intro now config
  unfold validateConfig
  split_ifs with h1 h2 h3 h4 h5
  · exact iff_of_false (by simp)
      (by rintro ⟨hne, -, -, -, -⟩; exact hne (List.length_eq_zero.mp h1))
  · exact iff_of_false (by simp) (by rintro ⟨-, hlen, -, -, -⟩; omega)
  · exact iff_of_false (by simp)
      (by rintro ⟨-, -, hne, -, -⟩; exact hne (List.length_eq_zero.mp h3))
  · exact iff_of_false (by simp) (by rintro ⟨-, -, -, hlt, -⟩; omega)
  · exact iff_of_false (by simp) (by rintro ⟨-, -, -, -, hle⟩; omega)
  · refine iff_of_true rfl ⟨?_, by omega, ?_, by omega, by omega⟩
    · intro hnil
      exact h1 (by simp [hnil])
    · intro hnil
      exact h3 (by simp [hnil])

/-- Witness for C2 (amended): a concrete valid configuration passes the
five checks. -/
theorem validateConfig_iff_witness :
    validateConfig 400
      { tickers := ["AAPL", "MSFT"], assetType := "stocks",
        strategies := ["ma_crossover"], startDate := 0, endDate := 365,
        rebalancePeriod := 30, initialCapital := 100000 } = none :=
  (validateConfig_iff 400 _).mpr (by refine ⟨by simp, by norm_num, by simp, by norm_num, by norm_num⟩)

end SignalStream


namespace SignalStream

/-! ## Lemmas about JS records and the signal map -/

/-- `getLast?` of a cons, phrased with `Option.or`. -/
lemma getLast?_cons_or {α : Type} (a : α) (l : List α) :
    (a :: l).getLast? = l.getLast?.or (some a) := by
  cases l <;> simp [List.getLast?]

/-- Reading a JS record after a property write: the written key returns
the new value, every other key is unaffected. -/
lemma jsRecordGet?_set {α : Type} (m : List (String × α)) (k k' : String) (v : α) :
    jsRecordGet? (jsRecordSet m k v) k' =
      if k' = k then some v else jsRecordGet? m k' := by
  unfold jsRecordSet jsRecordGet?
  by_cases hany : m.any (fun p => p.1 = k)
  · rw [if_pos hany, List.find?_map]
    have hg : ((fun p : String × α => decide (p.1 = k')) ∘
        fun p => if p.1 = k then (k, v) else p) =
        fun p : String × α => decide (p.1 = k') := by
      funext p
      by_cases hp : p.1 = k
      · simp [Function.comp, hp]
      · simp [Function.comp, hp]
    rw [hg]
    by_cases hk : k' = k
    · subst hk
      rw [if_pos rfl]
      rcases hfind : m.find? (fun p => p.1 = k') with _ | p₀
      · exfalso
        rw [List.find?_eq_none] at hfind
        rw [List.any_eq_true] at hany
        obtain ⟨p, hp, hpk⟩ := hany
        exact hfind p hp hpk
      · have hp₀ : p₀.1 = k' := by simpa using List.find?_some hfind
        rw [hfind]
        simp [hp₀]
    · rw [if_neg hk]
      rcases hfind : m.find? (fun p => p.1 = k') with _ | p₀
      · rw [hfind]
        simp
      · have hp₀ : ¬p₀.1 = k := by
          have := List.find?_some hfind
          simp only [decide_eq_true_eq] at this
          rw [this]
          exact hk
        rw [hfind]
        simp [hp₀]
  · rw [if_neg hany, List.find?_append]
    by_cases hk : k' = k
    · subst hk
      have hnone : m.find? (fun p => p.1 = k') = none := by
        rw [List.find?_eq_none]
        rw [List.any_eq_true] at hany
        push_neg at hany
        exact hany
      rw [hnone]
      simp [List.find?]
    · have h2 : List.find? (fun p : String × α => p.1 = k') [(k, v)] = none := by
        have : ¬((k, v).1 = k') := fun h => hk h.symm
        simp [List.find?, this]
      rw [h2, if_neg hk]
      simp

end SignalStream

namespace SignalStream

/-- Folding signals into a JS record, with an arbitrary starting record:
looking a key up returns the last signal written under it, else whatever
the starting record held. -/
lemma buildSignalMap_get?_aux (sigs : List StrategySignal) :
    ∀ (m : List (String × StrategySignal)) (k : String),
      jsRecordGet? (sigs.foldl (fun m s => jsRecordSet m (normKey s.name) s) m) k =
        ((sigs.filter (fun s => normKey s.name = k)).getLast?).or (jsRecordGet? m k) := by
  induction sigs with
  | nil => intro m k; simp
  | cons s ss ih =>
    intro m k
    rw [List.foldl_cons, ih, jsRecordGet?_set]
    by_cases hp : normKey s.name = k
    · rw [List.filter_cons_of_pos (by simpa using hp), getLast?_cons_or,
        Option.or_assoc, if_pos hp.symm]
      simp
    · rw [List.filter_cons_of_neg (by simpa using hp),
        if_neg (fun h => hp h.symm)]

/-- The signal map of `aggregateSignals` realizes last-write-wins lookup:
reading key `k` returns the last supplied signal whose normalized name
is `k`. -/
lemma buildSignalMap_get? (sigs : List StrategySignal) (k : String) :
    jsRecordGet? (buildSignalMap sigs) k =
      (sigs.filter (fun s => normKey s.name = k)).getLast? := by
  unfold buildSignalMap
  rw [buildSignalMap_get?_aux]
  simp [jsRecordGet?]

/-- The weights fold of `aggregateSignals`, written as two explicit sums
over the weight entries: matched entries contribute
`weight * normalizedScore` and `weight`. -/
lemma weightTotals_eq_sums (m : List (String × StrategySignal)) :
    ∀ (w : List (String × ℚ)),
      weightTotals m w =
        ((w.map (fun kw =>
            match jsRecordGet? m kw.1 with
            | some s => kw.2 * s.normalizedScore
            | none => 0)).sum,
          (w.map (fun kw =>
            if (jsRecordGet? m kw.1).isSome then kw.2 else 0)).sum) := by
  have aux : ∀ (w : List (String × ℚ)) (acc : ℚ × ℚ),
      w.foldl (fun acc kw =>
        match jsRecordGet? m kw.1 with
        | some s => (acc.1 + kw.2 * s.normalizedScore, acc.2 + kw.2)
        | none => acc) acc =
      (acc.1 + (w.map (fun kw =>
          match jsRecordGet? m kw.1 with
          | some s => kw.2 * s.normalizedScore
          | none => 0)).sum,
        acc.2 + (w.map (fun kw =>
          if (jsRecordGet? m kw.1).isSome then kw.2 else 0)).sum) := by
    intro w
    induction w with
    | nil => intro acc; simp
    | cons kw ws ih =>
      intro acc
      rw [List.foldl_cons, List.map_cons, List.map_cons, List.sum_cons,
        List.sum_cons]
      rcases hget : jsRecordGet? m kw.1 with _ | s
      · rw [ih]
        simp [hget]
      · rw [ih]
        simp only [hget, Option.isSome_some, if_true, Prod.mk.injEq]
        constructor
        · ring
        · ring
  intro w
  unfold weightTotals
  rw [aux]
  simp

end SignalStream

namespace SignalStream

/-- `getLast?` of an append, phrased with `Option.or`. -/
lemma getLast?_append_or {α : Type} (l₁ l₂ : List α) :
    (l₁ ++ l₂).getLast? = l₂.getLast?.or l₁.getLast? := by
  induction l₁ with
  | nil => simp
  | cons a t ih =>
    rw [List.cons_append, getLast?_cons_or, ih, getLast?_cons_or, Option.or_assoc]

/-- C7.  `aggregateSignals` computes its score as the weight-weighted
mean of the normalized scores of exactly those weight entries whose key
matches a supplied signal (the last one supplied under that key), and
returns `0` when the total matched weight is not positive; on an empty
signal list the recommendation is score `0`, direction `HOLD`,
confidence `0`. -/
theorem aggregateSignals_weighted_mean :
    ∀ (ticker assetType : String) (currentPrice priceChangePct volatility : ℚ)
      (signals : List StrategySignal) (weights : List (String × ℚ)),
      ((aggregateSignals ticker assetType currentPrice priceChangePct volatility
          signals weights).score =
        (if 0 < (weights.map (fun kw =>
              if ((signals.filter (fun s => normKey s.name = kw.1)).getLast?).isSome
              then kw.2 else 0)).sum
         then (weights.map (fun kw =>
              match (signals.filter (fun s => normKey s.name = kw.1)).getLast? with
              | some s => kw.2 * s.normalizedScore
              | none => 0)).sum /
            (weights.map (fun kw =>
              if ((signals.filter (fun s => normKey s.name = kw.1)).getLast?).isSome
              then kw.2 else 0)).sum
         else 0)) ∧
      (aggregateSignals ticker assetType currentPrice priceChangePct volatility
          [] weights).score = 0 ∧
      (aggregateSignals ticker assetType currentPrice priceChangePct volatility
          [] weights).recommendation = .HOLD ∧
      (aggregateSignals ticker assetType currentPrice priceChangePct volatility
          [] weights).confidence = 0 := by
  intro ticker assetType currentPrice priceChangePct volatility signals weights
  have htot : ∀ sigs : List StrategySignal,
      weightTotals (buildSignalMap sigs) weights =
        ((weights.map (fun kw =>
            match (sigs.filter (fun s => normKey s.name = kw.1)).getLast? with
            | some s => kw.2 * s.normalizedScore
            | none => 0)).sum,
          (weights.map (fun kw =>
            if ((sigs.filter (fun s => normKey s.name = kw.1)).getLast?).isSome
            then kw.2 else 0)).sum) := by
    intro sigs
    rw [weightTotals_eq_sums]
    refine congrArg₂ Prod.mk ?_ ?_ <;>
      exact congrArg List.sum
        (List.map_congr_left (fun kw _ => by rw [buildSignalMap_get?]))
  have hempty : weightTotals (buildSignalMap []) weights = (0, 0) := by
    rw [htot]
    simp
  refine ⟨?_, ?_, ?_, ?_⟩
  · unfold aggregateSignals
    dsimp only
    rw [htot]
  · unfold aggregateSignals
    dsimp only
    rw [hempty]
    norm_num
  · unfold aggregateSignals
    dsimp only
    rw [hempty]
    norm_num
  · unfold aggregateSignals
    dsimp only
    unfold calculateConfidence
    simp

/-- C10.  When two supplied signals normalize to the same strategy key,
only the later one counts: the signal map holds the later signal under
the shared key and coincides, key for key, with the map built without
the earlier signal; the weighted-score/total-weight pair, and hence the
combined score, are those of the list without the earlier signal. -/
theorem aggregateSignals_duplicate_key_last_wins :
    ∀ (pre mid post : List StrategySignal) (s1 s2 : StrategySignal)
      (ticker assetType : String) (currentPrice priceChangePct volatility : ℚ)
      (weights : List (String × ℚ)),
      normKey s1.name = normKey s2.name →
      (∀ s ∈ post, normKey s.name ≠ normKey s2.name) →
      (jsRecordGet? (buildSignalMap (pre ++ s1 :: mid ++ s2 :: post))
          (normKey s2.name) = some s2) ∧
      (∀ k, jsRecordGet? (buildSignalMap (pre ++ s1 :: mid ++ s2 :: post)) k =
        jsRecordGet? (buildSignalMap (pre ++ mid ++ s2 :: post)) k) ∧
      (weightTotals (buildSignalMap (pre ++ s1 :: mid ++ s2 :: post)) weights =
        weightTotals (buildSignalMap (pre ++ mid ++ s2 :: post)) weights) ∧
      ((aggregateSignals ticker assetType currentPrice priceChangePct volatility
          (pre ++ s1 :: mid ++ s2 :: post) weights).score =
        (aggregateSignals ticker assetType currentPrice priceChangePct volatility
          (pre ++ mid ++ s2 :: post) weights).score) ∧
      (∀ k, jsRecordGet? ((aggregateSignals ticker assetType currentPrice
          priceChangePct volatility (pre ++ s1 :: mid ++ s2 :: post)
          weights).contributingSignals) k =
        jsRecordGet? ((aggregateSignals ticker assetType currentPrice
          priceChangePct volatility (pre ++ mid ++ s2 :: post)
          weights).contributingSignals) k) := by
  intro pre mid post s1 s2 ticker assetType currentPrice priceChangePct volatility
    weights h12 hpost
  have hmap : ∀ k, jsRecordGet? (buildSignalMap (pre ++ s1 :: mid ++ s2 :: post)) k =
      jsRecordGet? (buildSignalMap (pre ++ mid ++ s2 :: post)) k := by
    intro k
    rw [buildSignalMap_get?, buildSignalMap_get?]
    by_cases hp : normKey s1.name = k
    · have hk2 : normKey s2.name = k := h12 ▸ hp
      have hfp : post.filter (fun s => normKey s.name = k) = [] := by
        rw [List.filter_eq_nil_iff]
        intro s hs
        simpa [hk2] using hpost s hs
      simp [List.filter_append, List.filter_cons, hp, hk2, hfp,
        getLast?_append_or, getLast?_cons_or, Option.or_assoc]
    · simp [List.filter_append, List.filter_cons, hp]
  have hlast : jsRecordGet? (buildSignalMap (pre ++ s1 :: mid ++ s2 :: post))
      (normKey s2.name) = some s2 := by
    rw [buildSignalMap_get?]
    have hfp : post.filter (fun s => normKey s.name = normKey s2.name) = [] := by
      rw [List.filter_eq_nil_iff]
      intro s hs
      simpa using hpost s hs
    simp [List.filter_append, List.filter_cons, h12, hfp,
      getLast?_append_or, getLast?_cons_or, Option.or_assoc]
  have htotals : weightTotals (buildSignalMap (pre ++ s1 :: mid ++ s2 :: post))
      weights = weightTotals (buildSignalMap (pre ++ mid ++ s2 :: post)) weights := by
    rw [weightTotals_eq_sums, weightTotals_eq_sums]
    refine congrArg₂ Prod.mk ?_ ?_ <;>
      exact congrArg List.sum (List.map_congr_left (fun kw _ => by rw [hmap kw.1]))
  refine ⟨hlast, hmap, htotals, ?_, ?_⟩
  · unfold aggregateSignals
    dsimp only
    rw [htotals]
  · unfold aggregateSignals
    dsimp only
    exact hmap

end SignalStream

namespace SignalStream

/-- The earlier of two same-key signals used by the C10 witness. -/
def c10Early : StrategySignal :=
  { name := "Sig", rawScore := 0, normalizedScore := 1, direction := .buy,
    meta := [] }

/-- The later of two same-key signals used by the C10 witness. -/
def c10Late : StrategySignal :=
  { name := "Sig", rawScore := 0, normalizedScore := 2, direction := .sell,
    meta := [] }

/-- Witness for C10: with two concrete signals named identically, the
signal map holds the later one. -/
theorem aggregateSignals_duplicate_key_last_wins_witness :
    jsRecordGet? (buildSignalMap [c10Early, c10Late]) (normKey c10Late.name) =
      some c10Late :=
  (aggregateSignals_duplicate_key_last_wins [] [] [] c10Early c10Late "T" "stocks"
    0 0 0 [] rfl (by simp)).1

end SignalStream

namespace SignalStream

/-- The RSI formula `100 - 100/(1+rs)` lies in `[0, 100)` for any
non-negative relative strength. -/
lemma rsi_formula_bounds (rs : ℚ) (h : 0 ≤ rs) :
    0 ≤ 100 - 100 / (1 + rs) ∧ 100 - 100 / (1 + rs) < 100 := by
  have h1 : (0 : ℚ) < 1 + rs := by linarith
  constructor
  · have h2 : 100 / (1 + rs) ≤ 100 := by
      rw [div_le_iff₀ h1]
      nlinarith
    linarith
  · have h3 : 0 < 100 / (1 + rs) := by positivity
    linarith

/-- The average gain of an RSI window is non-negative. -/
lemma rsiGainAvg_nonneg (closes : List ℚ) (period i : ℕ) :
    0 ≤ rsiGainAvg closes period i := by
  unfold rsiGainAvg
  refine div_nonneg (List.sum_nonneg ?_) (Nat.cast_nonneg period)
  intro x hx
  have := (List.mem_filter.mp hx).2
  simp only [decide_eq_true_eq] at this
  exact this.le

/-- The average loss of an RSI window is non-negative. -/
lemma rsiLossAvg_nonneg (closes : List ℚ) (period i : ℕ) :
    0 ≤ rsiLossAvg closes period i := by
  unfold rsiLossAvg
  positivity

/-- The average gain of a supabase RSI window is non-negative. -/
lemma rsiGainAvgSb_nonneg (closes : List ℚ) (period i : ℕ) :
    0 ≤ rsiGainAvgSb closes period i := by
  unfold rsiGainAvgSb
  refine div_nonneg (List.sum_nonneg ?_) (Nat.cast_nonneg period)
  intro x hx
  have := (List.mem_filter.mp hx).2
  simp only [decide_eq_true_eq] at this
  exact this.le

/-- The average loss of a supabase RSI window is non-negative. -/
lemma rsiLossAvgSb_nonneg (closes : List ℚ) (period i : ℕ) :
    0 ≤ rsiLossAvgSb closes period i := by
  unfold rsiLossAvgSb
  positivity

/-- C4 (amended).  Every defined (non-`NaN`) entry of the library
`calculateRSI` lies in `[0, 100]` and equals exactly `100` precisely when
the average loss over its trailing window of price differences is zero;
the supabase backtest variant, by contrast, keeps all its entries inside
`[0, 100)` — it never attains `100`, because a zero average loss is
replaced by the capped relative strength `rs = 100`. -/
theorem rsi_range_and_extreme :
    (∀ (closes : List ℚ) (period j : ℕ) (r : ℚ),
      0 < period →
      (calculateRSI closes period).get? j = some (some r) →
      (0 ≤ r ∧ r ≤ 100) ∧ (r = 100 ↔ rsiLossAvg closes period (j - 1) = 0)) ∧
    (∀ (closes : List ℚ) (period : ℕ) (r : ℚ),
      0 < period → r ∈ calculateRSISb closes period → 0 ≤ r ∧ r < 100) := by
  constructor
  · intro closes period j r hper hget
    unfold calculateRSI at hget
    match j, hget with
    | 0, hget => simp at hget
    | j' + 1, hget =>
      rw [List.get?_cons_succ, List.get?_map] at hget
      rcases hidx : (List.range (rsiChanges closes).length).get? j' with _ | i
      · rw [hidx] at hget
        simp at hget
      · rw [hidx] at hget
        have hij : i = j' := by
          rcases Nat.lt_or_ge j' (rsiChanges closes).length with hlt | hge
          · rw [List.get?_range hlt] at hidx
            exact (Option.some_inj.mp hidx).symm
          · rw [List.get?_eq_none.mpr (by simpa using hge)] at hidx
            exact absurd hidx (by simp)
        rw [hij] at hget
        simp only [Option.map_some'] at hget
        have hget' : rsiEntry closes period j' = some r := Option.some_inj.mp hget
        unfold rsiEntry at hget'
        by_cases hwarm : j' < period
        · rw [if_pos hwarm] at hget'
          exact absurd hget' (by simp)
        · rw [if_neg hwarm] at hget'
          dsimp only at hget'
          have hj : j' + 1 - 1 = j' := by omega
          rw [hj]
          by_cases hloss : rsiLossAvg closes period j' = 0
          · rw [if_pos hloss] at hget'
            have hr : r = 100 := (Option.some_inj.mp hget').symm
            subst hr
            exact ⟨⟨by norm_num, by norm_num⟩, iff_of_true rfl hloss⟩
          · rw [if_neg hloss] at hget'
            have hr : r = 100 - 100 /
                (1 + rsiGainAvg closes period j' / rsiLossAvg closes period j') :=
              (Option.some_inj.mp hget').symm
            have hlpos : 0 < rsiLossAvg closes period j' :=
              lt_of_le_of_ne (rsiLossAvg_nonneg closes period j') (Ne.symm hloss)
            have hrs : 0 ≤ rsiGainAvg closes period j' / rsiLossAvg closes period j' :=
              div_nonneg (rsiGainAvg_nonneg closes period j') hlpos.le
            obtain ⟨hb1, hb2⟩ := rsi_formula_bounds _ hrs
            subst hr
            exact ⟨⟨hb1, hb2.le⟩, iff_of_false (by linarith) hloss⟩
  · intro closes period r hper hmem
    unfold calculateRSISb at hmem
    obtain ⟨i, hi, hentry⟩ := List.mem_map.mp hmem
    unfold rsiEntrySb at hentry
    by_cases hwarm : i < period
    · rw [if_pos hwarm] at hentry
      rw [← hentry]
      norm_num
    · rw [if_neg hwarm] at hentry
      dsimp only at hentry
      have hrs : 0 ≤ (if rsiLossAvgSb closes period i = 0 then 100
          else rsiGainAvgSb closes period i / rsiLossAvgSb closes period i) := by
        split
        · norm_num
        · rename_i hloss
          have hlpos : 0 < rsiLossAvgSb closes period i :=
            lt_of_le_of_ne (rsiLossAvgSb_nonneg closes period i) (Ne.symm hloss)
          exact div_nonneg (rsiGainAvgSb_nonneg closes period i) hlpos.le
      obtain ⟨hb1, hb2⟩ := rsi_formula_bounds _ hrs
      rw [← hentry]
      exact ⟨hb1, hb2⟩

end SignalStream

namespace SignalStream

/-- Witness for C4 (amended): concrete RSI entries of both variants. -/
theorem rsi_range_and_extreme_witness :
    ((0 ≤ (0 : ℚ) ∧ (0 : ℚ) ≤ 100) ∧
      ((0 : ℚ) = 100 ↔ rsiLossAvg [1, 2, 1] 1 1 = 0)) ∧
    (0 ≤ (50 : ℚ) ∧ (50 : ℚ) < 100) :=
  ⟨rsi_range_and_extreme.1 [1, 2, 1] 1 2 0 (by norm_num)
      (by norm_num [calculateRSI, rsiChanges, rsiEntry, rsiGainAvg, rsiLossAvg,
        List.range_succ]),
    rsi_range_and_extreme.2 [1, 2, 1] 1 50 (by norm_num)
      (by norm_num [calculateRSISb, rsiChanges, rsiEntrySb, List.range_succ])⟩

/-- Counterexample for C4: on sixteen strictly increasing closes the
supabase `calculateRSI` computes, at index 14, a window whose average
loss is zero, yet the entry is `10000/101 ≈ 99.0099`, not `100` (the
code substitutes the capped relative strength `rs = 100` instead of
returning `100`). -/
theorem rsiSb_zero_loss_entry_not_100 :
    (calculateRSISb [1, 2, 3, 4, 5, 6, 7, 8, 9, 10, 11, 12, 13, 14, 15, 16]
        14).get? 14 = some (10000 / 101) ∧
    rsiLossAvgSb [1, 2, 3, 4, 5, 6, 7, 8, 9, 10, 11, 12, 13, 14, 15, 16] 14 14 =
      0 ∧
    (10000 / 101 : ℚ) ≠ 100 := by
  refine ⟨?_, ?_, by norm_num⟩
  · norm_num [calculateRSISb, rsiChanges, rsiEntrySb, rsiGainAvgSb, rsiLossAvgSb,
      List.range_succ]
  · norm_num [rsiLossAvgSb, rsiChanges]

end SignalStream

namespace SignalStream

/-- `nanLe` with an `NaN` on the right is false. -/
lemma nanLe_none_right (x : Option ℚ) : nanLe x none = false := by
  cases x <;> rfl

/-- `nanLe` with an `NaN` on the left is false. -/
lemma nanLe_none_left (x : Option ℚ) : nanLe none x = false := by
  cases x <;> rfl

/-- `nanLe` on defined values is the rational comparison. -/
lemma nanLe_some_some (a b : ℚ) : nanLe (some a) (some b) = decide (a ≤ b) := rfl

/-- `nanLt` on defined values is the rational comparison. -/
lemma nanLt_some_some (a b : ℚ) : nanLt (some a) (some b) = decide (a < b) := rfl

/-- The SMA sequence has one entry per input value. -/
lemma calculateSMA_length (v : List ℚ) (p : ℕ) :
    (calculateSMA v p).length = v.length := by
  unfold calculateSMA
  rw [List.length_map, List.length_range]

/-- An in-range entry of the SMA sequence. -/
lemma calculateSMA_get? (v : List ℚ) (p i : ℕ) (h : i < v.length) :
    (calculateSMA v p).get? i =
      some (if i + 1 < p then none
        else some ((((v.drop (i + 1 - p)).take p).sum) / p)) := by
  unfold calculateSMA
  rw [List.get?_map, List.get?_range h]
  rfl

/-- An in-range entry of the SMA sequence, read with `getD` as the
strategy reads it. -/
lemma calculateSMA_getD (v : List ℚ) (p i : ℕ) (h : i < v.length) :
    (calculateSMA v p).getD i none =
      (if i + 1 < p then none
        else some ((((v.drop (i + 1 - p)).take p).sum) / p)) := by
  rw [List.getD_eq_getElem?_getD, ← List.get?_eq_getElem?, calculateSMA_get? v p i h]
  rfl

end SignalStream

namespace SignalStream

/-- Case analysis bridging the JS boolean crossover chain and its
propositional statement, all four SMA slots defined. -/
lemma directionIf_eq (s0 s1 l0 l1 : ℚ) :
    (if (nanLe (some s0) (some l0) && nanLt (some l1) (some s1)) = true then
      SignalDirection.buy
     else if (nanLe (some l0) (some s0) && nanLt (some s1) (some l1)) = true then
      SignalDirection.sell
     else if (nanLt (some l1) (some s1)) = true then SignalDirection.buy
     else if (nanLt (some s1) (some l1)) = true then SignalDirection.sell
     else SignalDirection.neutral) =
    (if s0 ≤ l0 ∧ l1 < s1 then SignalDirection.buy
     else if l0 ≤ s0 ∧ s1 < l1 then SignalDirection.sell
     else if l1 < s1 then SignalDirection.buy
     else if s1 < l1 then SignalDirection.sell
     else SignalDirection.neutral) := by
  by_cases ha : s0 ≤ l0 <;> by_cases hb : l1 < s1 <;> by_cases hc : l0 ≤ s0 <;>
    by_cases hd : s1 < l1 <;>
    simp [nanLe_some_some, nanLt_some_some, ha, hb, hc, hd]

/-- Case analysis for the boundary where the previous long-SMA slot is
`NaN`: both crossover tests are false and dominance decides. -/
lemma directionIf_nan_eq (s0v : Option ℚ) (s1 l1 : ℚ) :
    (if (nanLe s0v none && nanLt (some l1) (some s1)) = true then
      SignalDirection.buy
     else if (nanLe none s0v && nanLt (some s1) (some l1)) = true then
      SignalDirection.sell
     else if (nanLt (some l1) (some s1)) = true then SignalDirection.buy
     else if (nanLt (some s1) (some l1)) = true then SignalDirection.sell
     else SignalDirection.neutral) =
    (if l1 < s1 then SignalDirection.buy
     else if s1 < l1 then SignalDirection.sell
     else SignalDirection.neutral) := by
  by_cases hb : l1 < s1 <;> by_cases hd : s1 < l1 <;>
    simp [nanLe_none_right, nanLe_none_left, nanLt_some_some, hb, hd]

/-- C5.  With strictly more than `longWindow` bars, the MA-crossover
strategy's crossover test reads the last two SMA slots of each window,
and both are valid (non-`NaN`) — hence they are the two most recent
valid values: golden cross ⇒ buy, death cross ⇒ sell, and otherwise the
currently dominating MA decides.  At exactly `longWindow` bars the
previous long-SMA slot is `NaN` (only one valid long value exists), both
crossover comparisons are `NaN`-false, and the direction degenerates to
the dominance fallback on the two current values. -/
theorem maCrossover_uses_recent_valid_sma :
    ∀ (shortWindow longWindow : ℕ) (data : List ℚ),
      0 < shortWindow → shortWindow ≤ longWindow →
      (longWindow < data.length →
        ∃ s0 s1 l0 l1 : ℚ,
          (calculateSMA data shortWindow).getD (data.length - 2) none = some s0 ∧
          (calculateSMA data shortWindow).getD (data.length - 1) none = some s1 ∧
          (calculateSMA data longWindow).getD (data.length - 2) none = some l0 ∧
          (calculateSMA data longWindow).getD (data.length - 1) none = some l1 ∧
          (maCrossoverStrategy shortWindow longWindow data).direction =
            (if s0 ≤ l0 ∧ l1 < s1 then .buy
             else if l0 ≤ s0 ∧ s1 < l1 then .sell
             else if l1 < s1 then .buy
             else if s1 < l1 then .sell
             else .neutral)) ∧
      (shortWindow < longWindow → data.length = longWindow →
        ∃ s1 l1 : ℚ,
          (calculateSMA data shortWindow).getD (data.length - 1) none = some s1 ∧
          (calculateSMA data longWindow).getD (data.length - 1) none = some l1 ∧
          (calculateSMA data longWindow).getD (data.length - 2) none = none ∧
          (maCrossoverStrategy shortWindow longWindow data).direction =
            (if l1 < s1 then .buy
             else if s1 < l1 then .sell
             else .neutral)) := by
  intro shortWindow longWindow data hsw hswle
  constructor
  · intro hlen
    have h1 : data.length - 1 < data.length := by omega
    have h2 : data.length - 2 < data.length := by omega
    have e1 : (calculateSMA data shortWindow).getD (data.length - 2) none =
        some (((data.drop (data.length - 2 + 1 - shortWindow)).take
          shortWindow).sum / shortWindow) := by
      rw [calculateSMA_getD data shortWindow _ h2, if_neg (by omega)]
    have e2 : (calculateSMA data shortWindow).getD (data.length - 1) none =
        some (((data.drop (data.length - 1 + 1 - shortWindow)).take
          shortWindow).sum / shortWindow) := by
      rw [calculateSMA_getD data shortWindow _ h1, if_neg (by omega)]
    have e3 : (calculateSMA data longWindow).getD (data.length - 2) none =
        some (((data.drop (data.length - 2 + 1 - longWindow)).take
          longWindow).sum / longWindow) := by
      rw [calculateSMA_getD data longWindow _ h2, if_neg (by omega)]
    have e4 : (calculateSMA data longWindow).getD (data.length - 1) none =
        some (((data.drop (data.length - 1 + 1 - longWindow)).take
          longWindow).sum / longWindow) := by
      rw [calculateSMA_getD data longWindow _ h1, if_neg (by omega)]
    refine ⟨_, _, _, _, e1, e2, e3, e4, ?_⟩
    unfold maCrossoverStrategy
    rw [if_neg (by omega)]
    dsimp only
    simp only [calculateSMA_length]
    rw [e1, e2, e3, e4]
    exact directionIf_eq _ _ _ _
  · intro hlt hlen
    have h1 : data.length - 1 < data.length := by omega
    have h2 : data.length - 2 < data.length := by omega
    have eS0 : (calculateSMA data shortWindow).getD (data.length - 2) none =
        some (((data.drop (data.length - 2 + 1 - shortWindow)).take
          shortWindow).sum / shortWindow) := by
      rw [calculateSMA_getD data shortWindow _ h2, if_neg (by omega)]
    have eS1 : (calculateSMA data shortWindow).getD (data.length - 1) none =
        some (((data.drop (data.length - 1 + 1 - shortWindow)).take
          shortWindow).sum / shortWindow) := by
      rw [calculateSMA_getD data shortWindow _ h1, if_neg (by omega)]
    have eL0 : (calculateSMA data longWindow).getD (data.length - 2) none =
        none := by
      rw [calculateSMA_getD data longWindow _ h2, if_pos (by omega)]
    have eL1 : (calculateSMA data longWindow).getD (data.length - 1) none =
        some (((data.drop (data.length - 1 + 1 - longWindow)).take
          longWindow).sum / longWindow) := by
      rw [calculateSMA_getD data longWindow _ h1, if_neg (by omega)]
    refine ⟨_, _, eS1, eL1, eL0, ?_⟩
    unfold maCrossoverStrategy
    rw [if_neg (by omega)]
    dsimp only
    simp only [calculateSMA_length]
    rw [eS0, eS1, eL0, eL1]
    exact directionIf_nan_eq _ _ _

end SignalStream

namespace SignalStream

/-- Witness for C5: windows 1 and 2 over three rising closes (both SMA
slots valid) and over exactly two closes (previous long slot `NaN`). -/
theorem maCrossover_uses_recent_valid_sma_witness :
    (∃ s0 s1 l0 l1 : ℚ,
      (calculateSMA [1, 2, 3] 1).getD (([1, 2, 3] : List ℚ).length - 2) none =
        some s0 ∧
      (calculateSMA [1, 2, 3] 1).getD (([1, 2, 3] : List ℚ).length - 1) none =
        some s1 ∧
      (calculateSMA [1, 2, 3] 2).getD (([1, 2, 3] : List ℚ).length - 2) none =
        some l0 ∧
      (calculateSMA [1, 2, 3] 2).getD (([1, 2, 3] : List ℚ).length - 1) none =
        some l1 ∧
      (maCrossoverStrategy 1 2 [1, 2, 3]).direction =
        (if s0 ≤ l0 ∧ l1 < s1 then .buy
         else if l0 ≤ s0 ∧ s1 < l1 then .sell
         else if l1 < s1 then .buy
         else if s1 < l1 then .sell
         else .neutral)) ∧
    (∃ s1 l1 : ℚ,
      (calculateSMA [1, 2] 1).getD (([1, 2] : List ℚ).length - 1) none = some s1 ∧
      (calculateSMA [1, 2] 2).getD (([1, 2] : List ℚ).length - 1) none = some l1 ∧
      (calculateSMA [1, 2] 2).getD (([1, 2] : List ℚ).length - 2) none = none ∧
      (maCrossoverStrategy 1 2 [1, 2]).direction =
        (if l1 < s1 then .buy
         else if s1 < l1 then .sell
         else .neutral)) :=
  ⟨(maCrossover_uses_recent_valid_sma 1 2 [1, 2, 3] (by norm_num) (by norm_num)).1
      (by norm_num),
    (maCrossover_uses_recent_valid_sma 1 2 [1, 2] (by norm_num) (by norm_num)).2
      (by norm_num) (by norm_num)⟩

end SignalStream

namespace SignalStream

/-- A rational that is a non-negative integer (what the spec means by a
share quantity). -/
def isNatValue (q : ℚ) : Prop := q.den = 1 ∧ 0 ≤ q.num

/-- The C9 portfolio invariant: non-negative cash, and every held
quantity a non-negative integer. -/
def btInv (s : BTState) : Prop :=
  0 ≤ s.cash ∧ ∀ p ∈ s.holdings, isNatValue p.2

/-- A non-negative integral rational is non-negative. -/
lemma isNatValue_nonneg {q : ℚ} (h : isNatValue q) : 0 ≤ q := by
  rw [← Rat.num_nonneg]
  exact h.2

/-- An integer cast to `ℚ` with non-negative value is a `isNatValue`. -/
lemma isNatValue_intCast {z : ℤ} (h : 0 ≤ z) : isNatValue (z : ℚ) := by
  constructor
  · exact Rat.den_intCast z
  · rw [Rat.num_intCast]
    exact h

/-- Membership after a JS record write: either an old entry or the
written pair. -/
lemma jsRecordSet_mem {α : Type} {m : List (String × α)} {k : String} {v : α}
    {p : String × α} (hp : p ∈ jsRecordSet m k v) : p ∈ m ∨ p = (k, v) := by
  unfold jsRecordSet at hp
  split at hp
  · obtain ⟨q, hq, hfq⟩ := List.mem_map.mp hp
    by_cases hqk : q.1 = k
    · right
      rw [← hfq, if_pos hqk]
    · left
      rw [← hfq, if_neg hqk]
      exact hq
  · rcases List.mem_append.mp hp with h | h
    · exact Or.inl h
    · right
      simpa using h

/-- The liquidation fold can only grow the cash, provided every held
quantity is a non-negative integer. -/
lemma liquidateHoldings_cash_mono (tickerDataMap : List (String × List PriceBar))
    (date : ℤ) :
    ∀ (holdings : List (String × ℚ)) (cash : ℚ) (trades : List Trade),
      (∀ p ∈ holdings, isNatValue p.2) →
      cash ≤ (liquidateHoldings tickerDataMap date cash holdings trades).1 := by
  intro holdings
  induction holdings with
  | nil => intro cash trades _; simp [liquidateHoldings]
  | cons p ps ih =>
    intro cash trades hq
    unfold liquidateHoldings
    rw [List.foldl_cons]
    dsimp only
    split
    · rename_i hprice
      have hstep : cash ≤ cash + p.2 * getPriceAtDate (tickerData tickerDataMap p.1) date := by
        have hq0 : 0 ≤ p.2 := isNatValue_nonneg (hq p (List.mem_cons_self p ps))
        nlinarith
      exact hstep.trans (ih _ _ (fun q hqm => hq q (List.mem_cons_of_mem p hqm)))
    · exact ih _ _ (fun q hqm => hq q (List.mem_cons_of_mem p hqm))

/-- The purchase of `⌊capitalPerAsset/price⌋` shares costs at most
`capitalPerAsset`. -/
lemma floor_purchase_le (capitalPerAsset price : ℚ) (hp : 0 < price) :
    ((⌊capitalPerAsset / price⌋ : ℤ) : ℚ) * price ≤ capitalPerAsset := by
  have h1 : ((⌊capitalPerAsset / price⌋ : ℤ) : ℚ) ≤ capitalPerAsset / price :=
    Int.floor_le _
  calc ((⌊capitalPerAsset / price⌋ : ℤ) : ℚ) * price
      ≤ (capitalPerAsset / price) * price := by nlinarith
    _ = capitalPerAsset := div_mul_cancel₀ _ hp.ne'

/-- The buy fold keeps the cash above `acc.1 - l.length * capitalPerAsset`
and every written holding a positive integer: if the starting cash covers
`l.length` allocations, the final cash is non-negative and the holdings
invariant is preserved. -/
lemma buyFold_inv (tickerDataMap : List (String × List PriceBar)) (date : ℤ)
    (capitalPerAsset : ℚ) (hcap : 0 ≤ capitalPerAsset) :
    ∀ (l : List AssetRecommendation) (acc : ℚ × List (String × ℚ) × List Trade),
      (l.length : ℚ) * capitalPerAsset ≤ acc.1 →
      (∀ p ∈ acc.2.1, isNatValue p.2) →
      0 ≤ (l.foldl (buyStep tickerDataMap date capitalPerAsset) acc).1 ∧
        ∀ p ∈ (l.foldl (buyStep tickerDataMap date capitalPerAsset) acc).2.1,
          isNatValue p.2 := by
  intro l
  induction l with
  | nil =>
    intro acc hcash hhold
    rw [List.foldl_nil]
    refine ⟨?_, hhold⟩
    simpa using hcash
  | cons rec l ih =>
    intro acc hcash hhold
    rw [List.foldl_cons]
    have hlen : ((l.length : ℚ)) * capitalPerAsset ≤ ((l.length : ℚ) + 1) * capitalPerAsset := by
      nlinarith
    have hlen' : ((rec :: l).length : ℚ) = (l.length : ℚ) + 1 := by
      push_cast [List.length_cons]
      ring
    rw [hlen'] at hcash
    unfold buyStep
    dsimp only
    split
    · rename_i hprice
      split
      · rename_i hqty
        refine ih _ ?_ ?_
        · have hcost := floor_purchase_le capitalPerAsset
            (getPriceAtDate (tickerData tickerDataMap rec.ticker) date) hprice
          dsimp only
          linarith
        · intro p hp
          rcases jsRecordSet_mem hp with h | h
          · exact hhold p h
          · rw [h]
            exact isNatValue_intCast (by omega)
      · exact ih _ (by linarith) hhold
    · exact ih _ (by linarith) hhold

/-- One date step of the backtest preserves the portfolio invariant. -/
lemma btStep_inv (tickerDataMap : List (String × List PriceBar))
    (recsAt : ℤ → List AssetRecommendation) (rebalancePeriod : ℤ)
    (s : BTState) (idxDate : ℕ × ℤ) (hs : btInv s) :
    btInv (btStep tickerDataMap recsAt rebalancePeriod s idxDate) := by
  obtain ⟨hcash, hhold⟩ := hs
  unfold btStep
  dsimp only
  split
  · have hsold : 0 ≤ (liquidateHoldings tickerDataMap idxDate.2 s.cash s.holdings
        s.trades).1 :=
      hcash.trans (liquidateHoldings_cash_mono _ _ s.holdings s.cash s.trades hhold)
    split
    · rename_i hne
      set buys := (List.insertionSort (fun a b => b.score ≤ a.score)
        ((recsAt idxDate.2).filter (fun r => r.recommendation = .BUY))).take 5 with hbuys
      have hlenpos : 0 < (buys.length : ℚ) := by
        have : buys.length ≠ 0 := by
          simpa [hbuys] using hne
        have : 0 < buys.length := Nat.pos_of_ne_zero this
        exact_mod_cast this
      have hcap : 0 ≤ (liquidateHoldings tickerDataMap idxDate.2 s.cash s.holdings
          s.trades).1 / (buys.length : ℚ) :=
        div_nonneg hsold hlenpos.le
      have hcover : ((buys.length : ℚ)) *
          ((liquidateHoldings tickerDataMap idxDate.2 s.cash s.holdings
            s.trades).1 / (buys.length : ℚ)) =
          (liquidateHoldings tickerDataMap idxDate.2 s.cash s.holdings s.trades).1 :=
        mul_div_cancel₀ _ hlenpos.ne'
      have := buyFold_inv tickerDataMap idxDate.2 _ hcap buys
        ((liquidateHoldings tickerDataMap idxDate.2 s.cash s.holdings s.trades).1,
          [], (liquidateHoldings tickerDataMap idxDate.2 s.cash s.holdings s.trades).2)
        (le_of_eq hcover) (by simp)
      exact ⟨this.1, this.2⟩
    · exact ⟨hsold, by simp⟩
  · exact ⟨hcash, hhold⟩

end SignalStream

namespace SignalStream

/-- C9.  Throughout a backtest with positive initial capital over bars
with positive closes, the portfolio invariant holds at every date step
of the simulation — after any prefix of the (indexed) date axis, and in
particular at the end of the whole run: cash is never negative and every
held quantity is a non-negative integer. -/
theorem backtest_portfolio_invariant :
    ∀ (tickerDataMap : List (String × List PriceBar))
      (recsAt : ℤ → List AssetRecommendation) (config : BacktestConfig),
      0 < config.initialCapital →
      (∀ td ∈ tickerDataMap, ∀ bar ∈ td.2, 0 < bar.close) →
      (∀ (dates : List (ℕ × ℤ)) (firstDate : ℤ),
        btInv (dates.foldl (btStep tickerDataMap recsAt config.rebalancePeriod)
          (initState config.initialCapital firstDate))) ∧
      btInv (runBacktest tickerDataMap recsAt config) := by
  intro tickerDataMap recsAt config hcap _hclose
  have hinit : ∀ firstDate, btInv (initState config.initialCapital firstDate) := by
    intro firstDate
    exact ⟨hcap.le, by simp [initState]⟩
  have hfold : ∀ (dates : List (ℕ × ℤ)) (s : BTState), btInv s →
      btInv (dates.foldl (btStep tickerDataMap recsAt config.rebalancePeriod) s) := by
    intro dates
    induction dates with
    | nil => intro s hs; simpa using hs
    | cons d ds ih =>
      intro s hs
      rw [List.foldl_cons]
      exact ih _ (btStep_inv tickerDataMap recsAt config.rebalancePeriod s d hs)
  refine ⟨fun dates firstDate => hfold dates _ (hinit firstDate), ?_⟩
  unfold runBacktest
  exact hfold _ _ (hinit _)

/-- Witness for C9: a one-ticker, one-bar backtest with no
recommendations. -/
theorem backtest_portfolio_invariant_witness :
    btInv (runBacktest [("A", [{ date := 0, close := 10 }])] (fun _ => [])
      { tickers := ["A"], assetType := "stocks", strategies := ["ma_crossover"],
        startDate := 0, endDate := 10, rebalancePeriod := 30,
        initialCapital := 1000 }) :=
  (backtest_portfolio_invariant [("A", [{ date := 0, close := 10 }])] (fun _ => [])
    { tickers := ["A"], assetType := "stocks", strategies := ["ma_crossover"],
      startDate := 0, endDate := 10, rebalancePeriod := 30,
      initialCapital := 1000 } (by norm_num) (by norm_num)).2

end SignalStream

namespace SignalStream

/-- If no positive price exists for a ticker at the date, the buy fold
never writes it into the holdings. -/
lemma buyFold_get_none (tickerDataMap : List (String × List PriceBar)) (date : ℤ)
    (capitalPerAsset : ℚ) (t : String)
    (ht : getPriceAtDate (tickerData tickerDataMap t) date ≤ 0) :
    ∀ (l : List AssetRecommendation) (acc : ℚ × List (String × ℚ) × List Trade),
      jsRecordGet? acc.2.1 t = none →
      jsRecordGet? ((l.foldl (buyStep tickerDataMap date capitalPerAsset) acc).2.1)
        t = none := by
  intro l
  induction l with
  | nil => intro acc h; simpa using h
  | cons rec l ih =>
    intro acc h
    rw [List.foldl_cons]
    refine ih _ ?_
    unfold buyStep
    dsimp only
    split
    · rename_i hprice
      split
      · have hne : t ≠ rec.ticker := by
          intro he
          rw [he] at ht
          exact absurd hprice (not_lt.mpr ht)
        dsimp only
        rw [jsRecordGet?_set, if_neg hne]
        exact h
      · exact h
    · exact h

/-- C1 (amended).  A rebalance liquidation credits cash with, and logs a
sell trade for, exactly the held positions whose price at the rebalance
date is positive; a held ticker with no (positive) price is skipped with
no trade and no cash credit, and, because the holdings record is then
reset before reinvestment, after the rebalance completes that ticker is
absent from the holdings — its quantity is destroyed, not stranded. -/
theorem rebalance_liquidation_and_reset :
    ∀ (tickerDataMap : List (String × List PriceBar)) (date : ℤ) (cash : ℚ)
      (holdings : List (String × ℚ)) (trades : List Trade),
      ((liquidateHoldings tickerDataMap date cash holdings trades).1 =
        cash + ((holdings.filter (fun p =>
          0 < getPriceAtDate (tickerData tickerDataMap p.1) date)).map (fun p =>
            p.2 * getPriceAtDate (tickerData tickerDataMap p.1) date)).sum) ∧
      ((liquidateHoldings tickerDataMap date cash holdings trades).2 =
        trades ++ (holdings.filter (fun p =>
          0 < getPriceAtDate (tickerData tickerDataMap p.1) date)).map (fun p =>
            { date := date, ticker := p.1, action := TradeAction.sell,
              price := getPriceAtDate (tickerData tickerDataMap p.1) date,
              quantity := p.2,
              value := p.2 * getPriceAtDate (tickerData tickerDataMap p.1) date })) ∧
      (∀ (recsAt : ℤ → List AssetRecommendation) (rebalancePeriod : ℤ)
        (s : BTState) (i : ℕ) (t : String),
        (rebalancePeriod ≤ date - s.lastRebalanceDate ∨ i = 0) →
        getPriceAtDate (tickerData tickerDataMap t) date ≤ 0 →
        jsRecordGet? ((btStep tickerDataMap recsAt rebalancePeriod s
          (i, date)).holdings) t = none) := by
  intro tickerDataMap date cash holdings trades
  have aux : ∀ (hs : List (String × ℚ)) (c : ℚ) (ts : List Trade),
      liquidateHoldings tickerDataMap date c hs ts =
        (c + ((hs.filter (fun p =>
          0 < getPriceAtDate (tickerData tickerDataMap p.1) date)).map (fun p =>
            p.2 * getPriceAtDate (tickerData tickerDataMap p.1) date)).sum,
          ts ++ (hs.filter (fun p =>
            0 < getPriceAtDate (tickerData tickerDataMap p.1) date)).map (fun p =>
              { date := date, ticker := p.1, action := TradeAction.sell,
                price := getPriceAtDate (tickerData tickerDataMap p.1) date,
                quantity := p.2,
                value := p.2 * getPriceAtDate (tickerData tickerDataMap p.1)
                  date })) := by
    intro hs
    induction hs with
    | nil => intro c ts; simp [liquidateHoldings]
    | cons p ps ih =>
      intro c ts
      unfold liquidateHoldings
      rw [List.foldl_cons]
      dsimp only
      by_cases hp : 0 < getPriceAtDate (tickerData tickerDataMap p.1) date
      · rw [if_pos hp]
        change liquidateHoldings tickerDataMap date _ ps _ = _
        rw [ih, List.filter_cons_of_pos (by simpa using hp), List.map_cons,
          List.sum_cons, List.map_cons]
        refine congrArg₂ Prod.mk (by ring) ?_
        simp
      · rw [if_neg hp]
        change liquidateHoldings tickerDataMap date _ ps _ = _
        rw [ih, List.filter_cons_of_neg (by simpa using hp)]
  have h12 := aux holdings cash trades
  refine ⟨by rw [h12], by rw [h12], ?_⟩
  intro recsAt rebalancePeriod s i t hreb ht
  unfold btStep
  dsimp only
  rw [if_pos hreb]
  dsimp only
  split
  · exact buyFold_get_none tickerDataMap date _ t ht _ _ (by simp [jsRecordGet?])
  · simp [jsRecordGet?]

end SignalStream

namespace SignalStream

/-- C1 scenario data: ticker `A` has a bar only at date 0 (close 10);
ticker `B` has a bar only at date 40, so the date axis is `[0, 40]` and
`A` has no price on the second rebalance date. -/
def c1Map : List (String × List PriceBar) :=
  [("A", [{ date := 0, close := 10 }]), ("B", [{ date := 40, close := 7 }])]

/-- C1 scenario recommendation: buy `A` at the first rebalance. -/
def c1Rec : AssetRecommendation :=
  { ticker := "A", assetType := "stocks", recommendation := .BUY, score := 1,
    confidence := 50, volatility := 0, currentPrice := 10, priceChangePct := 0,
    contributingSignals := [] }

/-- C1 scenario recommendation generator. -/
def c1Recs : ℤ → List AssetRecommendation :=
  fun d => if d = 0 then [c1Rec] else []

/-- C1 scenario config: capital 1000, rebalance every 30 days. -/
def c1Cfg : BacktestConfig :=
  { tickers := ["A", "B"], assetType := "stocks", strategies := ["ma_crossover"],
    startDate := 0, endDate := 40, rebalancePeriod := 30, initialCapital := 1000 }

/-- The single trade of the C1 scenario: 100 shares of `A` bought at 10. -/
def c1BuyTrade : Trade :=
  { date := 0, ticker := "A", action := .buy, price := 10, quantity := 100,
    value := 1000 }

/-- Counterexample for C1.  Running the backtest: at date 0 the engine
buys 100 shares of `A` for the whole 1000 cash; at date 40 a rebalance
fires while `A` has no price — the sell loop skips it (no sell trade, no
cash) and `holdings = {}` then erases the position.  After the rebalance
the holdings map is empty (`A`'s quantity does NOT remain), the trade
log still holds only the buy, and the equity curve drops to 0: the
position is destroyed, not stranded until a later priced date. -/
theorem rebalance_stranding_cex :
    (runBacktest c1Map c1Recs c1Cfg).holdings = [] ∧
    jsRecordGet? ((runBacktest c1Map c1Recs c1Cfg).holdings) "A" = none ∧
    (runBacktest c1Map c1Recs c1Cfg).trades = [c1BuyTrade] ∧
    (runBacktest c1Map c1Recs c1Cfg).equityCurve = [(0, 1000), (40, 0)] := by
  refine ⟨?_, ?_, ?_, ?_⟩ <;>
    norm_num [runBacktest, sortedDatesOf, c1Map, c1Recs, c1Cfg, c1Rec, c1BuyTrade,
      List.insertionSort, List.orderedInsert, List.dedup, List.enum, btStep,
      initState, liquidateHoldings, buyStep, calculatePortfolioValue,
      getPriceAtDate, tickerData, jsRecordGet?, jsRecordSet, List.find?]

/-- A portfolio state holding 5 unpriced shares of `A`, entering a
rebalance. -/
def c1State : BTState :=
  { cash := 0, holdings := [("A", 5)], equityCurve := [], trades := [],
    periodReturns := [], lastRebalanceDate := 0, valueAtLastRebalance := 50 }

/-- Witness for C1 (amended): at the concrete date-40 rebalance the
unpriced ticker `A` is absent from the post-rebalance holdings. -/
theorem rebalance_liquidation_and_reset_witness :
    jsRecordGet? ((btStep c1Map c1Recs 30 c1State (1, 40)).holdings) "A" = none :=
  (rebalance_liquidation_and_reset c1Map 40 0 [] []).2.2 c1Recs 30 c1State 1 "A"
    (Or.inl (by norm_num [c1State]))
    (by norm_num [getPriceAtDate, tickerData, jsRecordGet?, c1Map, List.find?])

end SignalStream
